import Mathlib

/-!
Verification development for the rag-doc-intel repository.

Python text values are embedded as `List Char` (Python `len` counts code
points, matching `List.length`). The layout-normalization engine
(`src/parser/normalize_layout.py`), the indexer (`src/indexer/search_indexer.py`),
the document manager (`src/services/document_manager.py`) and the grounded
answerer (`src/query/search_query.py`) are embedded shallowly below; external
services (embedding, generation, the search store) appear as explicit
functional parameters or as explicit store states.
-/

/-- ASCII whitespace as stripped by Python `str.strip()` (the inputs of
interest contain only ASCII whitespace). -/
def isPySpace (c : Char) : Bool :=
  c = ' ' || c = '\t' || c = '\n' || c = '\r' || c = '\x0b' || c = '\x0c'

/-- Drop the maximal trailing run of characters satisfying `p`. -/
def dropTrailing (p : Char → Bool) : List Char → List Char
  | [] => []
  | c :: rest =>
    match dropTrailing p rest with
    | [] => if p c then [] else [c]
    | r => c :: r

/-- Python `str.strip()`: remove leading and trailing whitespace. -/
def pyStrip (l : List Char) : List Char :=
  dropTrailing isPySpace (l.dropWhile isPySpace)

/-- Decimal rendering of a natural number, as Python `str(n)` / f-string
interpolation of a non-negative int. -/
def natStr (n : Nat) : List Char :=
  (Nat.repr n).data

/-- Helper for `normalizeNewlines`: `k` counts the pending run of newline
characters seen so far; a run of 3 or more collapses to exactly two, as in
the source `re.sub(r"\n\x7b3,\x7d", "\n\n", text)`. -/
def normNLAux : List Char → Nat → List Char
  | [], k => List.replicate (if k ≥ 3 then 2 else k) '\n'
  | c :: rest, k =>
    if c = '\n' then normNLAux rest (k + 1)
    else List.replicate (if k ≥ 3 then 2 else k) '\n' ++ (c :: normNLAux rest 0)

/-- Model of `re.sub(r"\n\x7b3,\x7d", "\n\n", text)`: collapse every run of three or
more newlines to exactly two. -/
def normalizeNewlines (l : List Char) : List Char :=
  normNLAux l 0

/-- Index of the LAST newline in the list, if any: models Python
`text.rfind("\n", 0, stop)` applied to the prefix `text[0:stop]`. -/
def rfindNewline : List Char → Option Nat
  | [] => none
  | c :: rest =>
    match rfindNewline rest with
    | some j => some (j + 1)
    | none => if c = '\n' then some 0 else none

/-- The `while len(text) > max_chars` loop of `split_text`
(src/parser/normalize_layout.py lines 146-151), with explicit fuel.
Each iteration cuts at the last newline at-or-before the limit
(`text.rfind("\n", 0, max_chars)`), falling back to a hard cut at the
limit when no newline is in range, emits the prefix and continues with the
remainder. `none` means the fuel ran out; since an iteration whose cut
point is positive strictly shortens the text, fuel `text.length + 1`
suffices exactly when the Python loop terminates. -/
def splitTextLoop : Nat → List Char → Nat → List (List Char) → Option (List (List Char))
  | 0, _, _, _ => none
  | fuel + 1, text, maxChars, parts =>
    if text.length > maxChars then
      match rfindNewline (text.take maxChars) with
      | some j => splitTextLoop fuel (text.drop j) maxChars (parts ++ [text.take j])
      | none => splitTextLoop fuel (text.drop maxChars) maxChars (parts ++ [text.take maxChars])
    else some (parts ++ [text])

/-- Embedding of `split_text` (src/parser/normalize_layout.py lines 143-152): normalize
newline runs, then greedily split; the final remainder is always appended.
Returns `none` when the source loop diverges. -/
def split_text (text : List Char) (maxChars : Nat) : Option (List (List Char)) :=
  splitTextLoop ((normalizeNewlines text).length + 1) (normalizeNewlines text) maxChars []

/-! ### Structural document-analysis result (input of `doc_to_chunks`) -/

/-- A layout line: `line.content`. -/
structure DILine where
  content : List Char
deriving DecidableEq, Repr

/-- A layout page: `page.page_number`, `page.lines`. -/
structure DIPage where
  page_number : Nat
  lines : List DILine
deriving DecidableEq, Repr

/-- A layout paragraph: `p.role`, `p.content`, and the page numbers of its
bounding regions (`p.bounding_regions[i].page_number`); an empty list models
an empty/missing `bounding_regions`. -/
structure DIParagraph where
  role : Option (List Char)
  content : List Char
  bounding_pages : List Nat
deriving DecidableEq, Repr

/-- A table cell: `cell.row_index`, `cell.column_index`, `cell.content`. -/
structure DITableCell where
  row_index : Nat
  column_index : Nat
  content : List Char
deriving DecidableEq, Repr

/-- A layout table: its cells and the page numbers of its bounding regions. -/
structure DITable where
  cells : List DITableCell
  bounding_pages : List Nat
deriving DecidableEq, Repr

/-- A key or value span of a key-value pair: its content and the page
numbers of its bounding regions. -/
structure DIKVElem where
  content : List Char
  bounding_pages : List Nat
deriving DecidableEq, Repr

/-- A key-value pair: `kv.key` and `kv.value`, either possibly absent. -/
structure DIKeyValuePair where
  key : Option DIKVElem
  value : Option DIKVElem
deriving DecidableEq, Repr

/-- The document-analysis result consumed by `doc_to_chunks`: pages,
paragraphs, tables and key-value pairs (an absent/empty attribute in the
source is the empty list here: the `hasattr`-guarded loops then do nothing,
just like folding over an empty list). -/
structure DIResult where
  pages : List DIPage
  paragraphs : List DIParagraph
  tables : List DITable
  key_value_pairs : List DIKeyValuePair
deriving DecidableEq, Repr

/-! ### Extraction steps of `doc_to_chunks` (normalize_layout.py lines 39-104) -/

/-- Python `a or b` on an optional string: `None` and the empty string are
falsy. -/
def pyOrStr (o : Option (List Char)) (d : List Char) : List Char :=
  match o with
  | none => d
  | some s => if s = [] then d else s

/-- Python f-string rendering of an optional string: `None` prints as
`"None"`. -/
def fmtOptStr (o : Option (List Char)) : List Char :=
  match o with
  | none => ("None").data
  | some s => s

/-- Python f-string rendering of an optional non-negative int. -/
def fmtOptNat (o : Option Nat) : List Char :=
  match o with
  | none => ("None").data
  | some n => natStr n

/-- Step 1 per page: `text = ""` then `text += ln.content.strip() + "\n"`
for each line, then `text.strip()`. -/
def pageText (pg : DIPage) : List Char :=
  pyStrip (pg.lines.foldl (fun acc ln => acc ++ pyStrip ln.content ++ ['\n']) [])

/-- Python dict assignment `m[k] = v` on an insertion-ordered dict
represented as an association list: overwrite in place if the key exists,
else append. -/
def dictInsert (k : Nat) (v : List Char) : List (Nat × List Char) → List (Nat × List Char)
  | [] => [(k, v)]
  | (k', v') :: rest => if k' = k then (k, v) :: rest else (k', v') :: dictInsert k v rest

/-- Step 1: `page_text_map`, page number to stripped page text, in page
iteration order. -/
def page_text_map (r : DIResult) : List (Nat × List Char) :=
  r.pages.foldl (fun m pg => dictInsert pg.page_number (pageText pg) m) []

/-- An extracted paragraph record (step 2): role defaulted with Python
`or`, content, and the first bounding-region page number if any. -/
structure ParaRec where
  role : List Char
  text : List Char
  page : Option Nat
deriving DecidableEq, Repr

/-- Step 2: paragraph extraction. -/
def extract_paragraphs (r : DIResult) : List ParaRec :=
  r.paragraphs.map fun p =>
    { role := pyOrStr p.role (("body").data)
      text := p.content
      page := p.bounding_pages.head? }

/-- Insertion into a sorted list of naturals (ascending). -/
def insertSorted (n : Nat) : List Nat → List Nat
  | [] => [n]
  | m :: rest => if n ≤ m then n :: m :: rest else m :: insertSorted n rest

/-- Python `sorted` on a list of naturals. -/
def sortNat (l : List Nat) : List Nat :=
  l.foldr insertSorted []

/-- Lookup `rows[r][c]`: the content of the last cell written at row `r`, column
`c` (later cells overwrite earlier ones in the dict), defaulting to the
empty string as in `rows[r].get(c, "")`. -/
def cellContent (cells : List DITableCell) (r c : Nat) : List Char :=
  match (cells.filter fun cell => cell.row_index = r && cell.column_index = c).getLast? with
  | some cell => cell.content
  | none => []

/-- Step 3 rendering of one table (lines 73-88): group cells into rows,
sort row keys and column keys, join cell text with `" | "`, prefix
`"TABLE:\n"`, join rows with newlines. -/
def renderTable (t : DITable) : List Char :=
  let rowKeys := sortNat (t.cells.map (·.row_index)).dedup
  let rowLine := fun r =>
    let colKeys := sortNat ((t.cells.filter fun cell => cell.row_index = r).map (·.column_index)).dedup
    List.intercalate ((" | ").data) (colKeys.map fun c => cellContent t.cells r c)
  ("TABLE:").data ++ ['\n'] ++ (rowKeys.foldl (fun acc r => acc ++ rowLine r ++ ['\n']) [])

/-- An extracted table snippet (step 3): first bounding page and the
stripped rendered text. -/
structure TblRec where
  page : Option Nat
  text : List Char
deriving DecidableEq, Repr

/-- Step 3: table extraction. -/
def extract_tables (r : DIResult) : List TblRec :=
  r.tables.map fun t => { page := t.bounding_pages.head?, text := pyStrip (renderTable t) }

/-- An extracted key-value record (step 4). -/
structure KVRec where
  page : Option Nat
  text : List Char
deriving DecidableEq, Repr

/-- The page of a key-value pair:
`kv.key.bounding_regions[0].page_number if kv.key and kv.key.bounding_regions else None`. -/
def kvPage (kv : DIKeyValuePair) : Option Nat :=
  match kv.key with
  | some k => k.bounding_pages.head?
  | none => none

/-- Step 4: key-value extraction; `f"\x7bkey\x7d: \x7bval\x7d"` renders absent spans as
`"None"`. -/
def extract_kvs (r : DIResult) : List KVRec :=
  r.key_value_pairs.map fun kv =>
    { page := kvPage kv
      text := fmtOptStr (kv.key.map (·.content)) ++ (": ").data ++ fmtOptStr (kv.value.map (·.content)) }

/-! ### Page blocks and chunk emission (normalize_layout.py lines 109-169) -/

/-- Step 5, body of the loop for one page: header plus base text, then the
paragraph, table and key-value overlays, each appended only when its joined
text has non-whitespace content. -/
def blockFor (r : DIResult) (page_num : Nat) (txt : List Char) : List Char :=
  let block0 := ("PAGE ").data ++ natStr page_num ++ ['\n'] ++ txt
  let para_text := List.intercalate ['\n']
    (((extract_paragraphs r).filter fun p => p.page = some page_num).map (·.text))
  let block1 := if pyStrip para_text ≠ [] then
      block0 ++ ("\n\nPARAGRAPHS:\n").data ++ para_text
    else block0
  let tbl_text := List.intercalate ['\n']
    (((extract_tables r).filter fun t => t.page = some page_num).map (·.text))
  let block2 := if pyStrip tbl_text ≠ [] then
      block1 ++ ("\n\n").data ++ tbl_text
    else block1
  let kv_text := List.intercalate ['\n']
    (((extract_kvs r).filter fun k => k.page = some page_num).map (·.text))
  if pyStrip kv_text ≠ [] then
    block2 ++ ("\n\nKEY-VALUE PAIRS:\n").data ++ kv_text
  else block2

/-- Step 5: one `(page, stripped block text)` entry per `page_text_map`
item, in order. -/
def page_blocks (r : DIResult) : List (Nat × List Char) :=
  (page_text_map r).map fun e => (e.1, pyStrip (blockFor r e.1 e.2))

/-- A RAG chunk as built in step 7 (lines 160-167). -/
structure Chunk where
  id : List Char
  doc_id : List Char
  source_file : List Char
  page_number : Nat
  content : List Char
  section_title : List Char
deriving DecidableEq, Repr

/-- Step 7 for one page block: split its text and emit one chunk per part,
with id `f"\x7bdoc_id\x7d-p\x7bpage\x7d-c\x7bidx\x7d"`; `none` when `split_text` diverges. -/
def chunksOfBlock (doc_id source_file : List Char) (maxChars : Nat) (b : Nat × List Char) :
    Option (List Chunk) :=
  (split_text b.2 maxChars).map fun parts =>
    parts.enum.map fun e =>
      { id := doc_id ++ ("-p").data ++ natStr b.1 ++ ("-c").data ++ natStr e.1
        doc_id := doc_id
        source_file := source_file
        page_number := b.1
        content := e.2
        section_title := ("Page ").data ++ natStr b.1 }

/-- The chunk-emission loop over all page blocks, appending per block. -/
def chunksOfBlocks (doc_id source_file : List Char) (maxChars : Nat) :
    List (Nat × List Char) → Option (List Chunk)
  | [] => some []
  | b :: bs =>
    match chunksOfBlock doc_id source_file maxChars b, chunksOfBlocks doc_id source_file maxChars bs with
    | some cs, some rest => some (cs ++ rest)
    | _, _ => none

/-- Embedding of `doc_to_chunks` (normalize_layout.py lines 39-169): build the page
blocks and emit size-bounded chunks; `none` when the splitting loop
diverges on some page. -/
def doc_to_chunks (r : DIResult) (doc_id source_file : List Char) (maxChars : Nat := 2500) :
    Option (List Chunk) :=
  chunksOfBlocks doc_id source_file maxChars (page_blocks r)

/-! ### Grounded answerer (src/query/search_query.py) -/

/-- A search hit as consumed by `answer_with_search`: `c.get("id")`,
`c.get("filename")`, `c.get("page_number")` may be absent (`None`);
`c["content"]` is present. The relevance score is a float; the code only
ever renders it with a fixed 3-decimal format, so the hit carries that
rendering (`score3` stands for the text produced by the format spec
`.3f` applied to the score). -/
structure SearchHit where
  id : Option (List Char)
  filename : Option (List Char)
  page_number : Option Nat
  score3 : List Char
  content : List Char
deriving DecidableEq, Repr

/-- Context block `i` (1-based), search_query.py lines 187-189:
`f"[Chunk \x7bi\x7d] (page=...) (score=...)\n...content"`. -/
def contextBlock (i : Nat) (c : SearchHit) : List Char :=
  ("[Chunk ").data ++ natStr i ++ ("] (page=").data ++ fmtOptNat c.page_number ++
    (") (score=").data ++ c.score3 ++ (")").data ++ ['\n'] ++ c.content

/-- Citation line `i` (1-based), search_query.py lines 190-192:
`f"[\x7bi\x7d] filename - Page p - Chunk id - Score s"`. -/
def citationLine (i : Nat) (c : SearchHit) : List Char :=
  ("[").data ++ natStr i ++ ("] ").data ++ fmtOptStr c.filename ++
    (" - Page ").data ++ fmtOptNat c.page_number ++
    (" - Chunk ").data ++ fmtOptStr c.id ++
    (" - Score ").data ++ c.score3

/-- The numbered context blocks, one per hit in order
(`for i, c in enumerate(results, start=1)`). -/
def contextBlocks (hits : List SearchHit) : List (List Char) :=
  hits.enum.map fun e => contextBlock (e.1 + 1) e.2

/-- The numbered citation lines, one per hit in order. -/
def citationBlocks (hits : List SearchHit) : List (List Char) :=
  hits.enum.map fun e => citationLine (e.1 + 1) e.2

/-- A prior conversation message: `msg.get("role", "user")` and
`msg.get("content", "")` both defaulted; absence is `none`. -/
structure ChatMsg where
  role : Option (List Char)
  content : Option (List Char)
deriving DecidableEq, Repr

/-- Python `str.upper()` (ASCII). -/
def upperStr (l : List Char) : List Char :=
  l.map Char.toUpper

/-- Embedding of `format_chat_history` (search_query.py lines 150-161): skip messages
with falsy content, render `f"\x7brole.upper()\x7d: \x7bcontent\x7d"`, join with
newlines. -/
def format_chat_history (h : List ChatMsg) : List Char :=
  List.intercalate ['\n']
    ((h.filter fun m => m.content.getD [] ≠ []).map fun m =>
      upperStr (m.role.getD (("user").data)) ++ (": ").data ++ m.content.getD [])

/-- The fixed system directive `system_prompt` (search_query.py lines 76-95). -/
def systemPrompt : List Char :=
  ("\nYou are an expert legal analyst specializing in UAE commercial lease agreements.\n\nYour responsibilities:\n1. Provide accurate, concise, contract-grounded answers.\n2. Use ONLY the provided RAG chunks. \n3. If the answer is NOT in the chunks, say: \"This information is not present in the retrieved contract text.\"\n4. Cite every claim using the provided chunk IDs and page numbers.\n5. DO NOT invent any legal terms, amounts, tenant names, dates, or clauses.\n6. DO NOT summarize outside your context.\n7. Keep answers clear, professional, and free from speculation.\n\nAnswer format:\n-----------------------\n[ANSWER]\n\n[SOURCES]\n1. filename — Page X — Chunk ID — Score\n-----------------------\n").data

/-- The user payload of `answer_with_search` (lines 197-209): question,
prior history (or `N/A` when falsy), context blocks, final instruction. -/
def userPrompt (question history_text context_text : List Char) : List Char :=
  ("\nUser question:\n").data ++ question ++
    ("\n\nConversation so far (use only for context of the ask, not as a knowledge base):\n").data ++
    (if history_text = [] then ("N/A").data else history_text) ++
    ("\n\nHere are the retrieved chunks. ONLY use information found inside them:\n\n").data ++
    context_text ++
    ("\n\nNow answer the user question strictly based on the above chunks.\n").data

/-- The fixed no-hits answer (search_query.py line 179). -/
def noHitsMsg : List Char :=
  ("No relevant information was found in the indexed documents.").data

/-- The result dict of `answer_with_search`: answer text and raw results. -/
structure AnswerResult where
  answer : List Char
  results : List SearchHit
deriving DecidableEq, Repr

/-- Embedding of `answer_with_search` (search_query.py lines 164-222), with the search
already performed (`hits` is the list returned by `search_contracts`) and
the chat-completion service abstracted as `gen : system payload → user
payload → generated text`. Empty hits short-circuit before any generation;
otherwise generation is invoked once and the citation block is appended
verbatim after the generated text. -/
def answer_with_search (gen : List Char → List Char → List Char)
    (question : List Char) (chat_history : List ChatMsg) (hits : List SearchHit) :
    AnswerResult :=
  let history_text := format_chat_history chat_history
  if hits = [] then
    { answer := noHitsMsg, results := [] }
  else
    let context_text := List.intercalate (("\n\n").data) (contextBlocks hits)
    let citation_text := List.intercalate ['\n'] (citationBlocks hits)
    let final_answer := gen systemPrompt (userPrompt question history_text context_text)
    { answer := final_answer ++ ("\n\nSOURCES:\n").data ++ citation_text
      results := hits }

/-! ### Indexer (src/indexer/search_indexer.py) -/

/-- A chunk dict as passed to `index_chunks`: required keys `id`,
`content`, `doc_id`, `section_title`; optional `page_number`, `tags`
(default `[]`) and `entities` (default empty dict, here an association
list; the float-valued entity fields are carried as uninterpreted payloads). -/
structure IndexChunk where
  id : List Char
  content : List Char
  doc_id : List Char
  page_number : Option Nat
  section_title : List Char
  tags : List (List Char)
  entities : List (List Char × List Char)
deriving DecidableEq, Repr

/-- Python `entities.get(k)` on the association-list model. -/
def entGet (es : List (List Char × List Char)) (k : List Char) : Option (List Char) :=
  (es.find? fun e => e.1 = k).map (·.2)

/-- The search document built for one chunk (search_indexer.py lines
147-164); `V` is the embedding-vector type returned by `embed_text`. -/
structure UploadDoc (V : Type) where
  id : List Char
  content : List Char
  doc_id : List Char
  page_number : Option Nat
  section_title : List Char
  tags : List (List Char)
  contract_id : Option (List Char)
  tenant_name : Option (List Char)
  owner_name : Option (List Char)
  property_location : Option (List Char)
  gla : Option (List Char)
  lease_amount : Option (List Char)
  rent_per_sqft : Option (List Char)
  start_date : Option (List Char)
  end_date : Option (List Char)
  embedding : V
deriving DecidableEq, Repr

/-- Build the upload document for one chunk from its computed embedding. -/
def mkUploadDoc {V : Type} (ch : IndexChunk) (vec : V) : UploadDoc V :=
  { id := ch.id
    content := ch.content
    doc_id := ch.doc_id
    page_number := ch.page_number
    section_title := ch.section_title
    tags := ch.tags
    contract_id := entGet ch.entities (("contract_id").data)
    tenant_name := entGet ch.entities (("tenant_name").data)
    owner_name := entGet ch.entities (("owner_name").data)
    property_location := entGet ch.entities (("property_location").data)
    gla := entGet ch.entities (("gla").data)
    lease_amount := entGet ch.entities (("lease_amount").data)
    rent_per_sqft := entGet ch.entities (("rent_per_sqft").data)
    start_date := entGet ch.entities (("start_date").data)
    end_date := entGet ch.entities (("end_date").data)
    embedding := vec }

/-- The per-document outcome reported by the search store for a batch
upload (`r.succeeded`). -/
structure UploadResult where
  key : List Char
  succeeded : Bool
deriving DecidableEq, Repr

/-- The `for ch in chunks` loop of `index_chunks` (lines 140-165): embed
each chunk and build its document, sequentially; the first embedding
exception aborts the whole function (there is no try/except around
`embed_text`), which `Except.error` models. -/
def buildDocs {V E : Type} (embed : List Char → Except E V) :
    List IndexChunk → Except E (List (UploadDoc V))
  | [] => .ok []
  | ch :: rest =>
    match embed ch.content with
    | .error e => .error e
    | .ok vec =>
      match buildDocs embed rest with
      | .error e => .error e
      | .ok docs => .ok (mkUploadDoc ch vec :: docs)

/-- Boolean success test on `Except`. -/
def exceptIsOk {E A : Type} : Except E A → Bool
  | .ok _ => true
  | .error _ => false

/-- Embedding of `index_chunks` (search_indexer.py lines 134-177): build all documents
(aborting on the first embedding failure), return early when there are
none, otherwise upload the whole batch once and collect the non-succeeded
results (the printed failure report). The returned pair is (documents
passed to `upload_documents`, failure report). -/
def index_chunks {V E : Type} (embed : List Char → Except E V)
    (upload : List (UploadDoc V) → List UploadResult) (chunks : List IndexChunk) :
    Except E (List (UploadDoc V) × List UploadResult) :=
  match buildDocs embed chunks with
  | .error e => .error e
  | .ok docs =>
    if docs.isEmpty then .ok ([], [])
    else .ok (docs, (upload docs).filter fun r => !r.succeeded)

/-- Embedding of `delete_all_documents` (search_indexer.py lines 180-201) at the level
of the set of document ids stored in the index: one search with
`top=1000` (the store returns at most that many ids), then, if any ids
came back, one batch delete of exactly those ids. There is no loop in the
source: the function body issues a single query and a single delete. -/
def delete_all_documents (store : List Nat) : List Nat :=
  let ids := store.take 1000
  if ids.isEmpty then store
  else store.filter fun d => !(ids.contains d)

/-! ### Document manager (src/services/document_manager.py) -/

/-- An indexed chunk record as stored in the search index, for the
re-indexing claim: key field `id`, filterable `doc_id`, payload. -/
structure StoreDoc where
  id : List Char
  doc_id : List Char
  content : List Char
deriving DecidableEq, Repr

/-- Modelled from the spec: `delete_documents_by_doc_id` is imported from
`src.indexer.search_indexer` by `document_manager.py` but its definition is
not under src/. Spec section 4.2 and the glossary specify it: delete every
indexed chunk whose `doc_id` equals the given id (delete-by-filter emulated
by querying matching ids then issuing a batch delete). -/
def delete_documents_by_doc_id (docId : List Char) (store : List StoreDoc) : List StoreDoc :=
  store.filter fun d => !(d.doc_id = docId)

/-- One store upsert, keyed by `id` (spec section 6: upsert is idempotent
by `id`, last write wins): any existing document with the same id is
replaced. -/
def upsertOne (store : List StoreDoc) (doc : StoreDoc) : List StoreDoc :=
  (store.filter fun d => !(d.id = doc.id)) ++ [doc]

/-- A batch upload (`upload_documents`) as a sequence of keyed upserts. -/
def uploadDocsStore (store : List StoreDoc) (docs : List StoreDoc) : List StoreDoc :=
  docs.foldl upsertOne store

/-- The index-state effect of `reindex_document` (document_manager.py lines
68-79): `delete_documents_by_doc_id(doc_id)` followed by
`index_chunks(chunks)`, i.e. delete-then-write of the newly built chunk
documents `newDocs`. -/
def reindex_document_store (docId : List Char) (newDocs : List StoreDoc)
    (store : List StoreDoc) : List StoreDoc :=
  uploadDocsStore (delete_documents_by_doc_id docId store) newDocs

/-- The structural result with every page-less item removed: paragraphs
and tables whose `bounding_regions` yield no page number (the Python
`if p.bounding_regions else None` branch) and key-value pairs whose key is
absent or has no bounding region. Pages are untouched. -/
def dropPageless (r : DIResult) : DIResult :=
  { r with
    paragraphs := r.paragraphs.filter fun p => p.bounding_pages.head?.isSome
    tables := r.tables.filter fun t => t.bounding_pages.head?.isSome
    key_value_pairs := r.key_value_pairs.filter fun kv => (kvPage kv).isSome }

/-! ### Concrete fixtures used by witnesses and counterexamples -/

/-- The single chunk `doc_to_chunks` emits for the one-page witness result
below at maximum 9. -/
def wChunk0 : Chunk :=
  { id := ("d-p1-c0").data
    doc_id := ("d").data
    source_file := ("s").data
    page_number := 1
    content := ("PAGE 1\nab").data
    section_title := ("Page 1").data }

/-- A one-page result: page 1 with the single line `"ab"`; its page block
text is `"PAGE 1\nab"` (9 characters). -/
def wPage : DIPage := { page_number := 1, lines := [{ content := ("ab").data }] }

/-- Witness structural result. -/
def wResult : DIResult :=
  { pages := [wPage], paragraphs := [], tables := [], key_value_pairs := [] }

/-- Witness search hit. -/
def wHit : SearchHit :=
  { id := some (("d-p1-c0").data), filename := some (("lease.pdf").data)
    page_number := some 1, score3 := ("0.123").data, content := ("rent is due").data }

/-- A generation oracle returning a fixed text. -/
def constGen : List Char → List Char → List Char := fun _ _ => ("generated").data

/-- Embedding oracle that fails exactly on the content `"bad"`. -/
def wEmbedBad : List Char → Except Unit Nat :=
  fun c => if c = ("bad").data then .error () else .ok 7

/-- Embedding oracle that always succeeds. -/
def wEmbedOk : List Char → Except Unit Nat := fun _ => .ok 7

/-- Upload oracle marking every document succeeded. -/
def wUploadOk : List (UploadDoc Nat) → List UploadResult :=
  fun ds => ds.map fun d => { key := d.id, succeeded := true }

/-- Upload oracle marking the document with id `"f"` failed. -/
def wUploadOneFail : List (UploadDoc Nat) → List UploadResult :=
  fun ds => ds.map fun d => { key := d.id, succeeded := !(d.id = ("f").data) }

/-- A chunk whose content the failing embedder rejects. -/
def wChBad : IndexChunk :=
  { id := ("c-bad").data, content := ("bad").data, doc_id := ("D").data
    page_number := some 1, section_title := ("Page 1").data, tags := [], entities := [] }

/-- A chunk whose content embeds fine. -/
def wChGood : IndexChunk :=
  { id := ("c-good").data, content := ("good").data, doc_id := ("D").data
    page_number := some 2, section_title := ("Page 2").data, tags := [], entities := [] }

/-- A chunk carried under the id `"f"` that the one-fail uploader rejects. -/
def wChF : IndexChunk :=
  { id := ("f").data, content := ("good").data, doc_id := ("D").data
    page_number := some 3, section_title := ("Page 3").data, tags := [], entities := [] }

/-- Ten previously indexed chunks of document `"X"`. -/
def wOldX : List StoreDoc :=
  (List.range 10).map fun i =>
    { id := ("old").data ++ natStr i, doc_id := ("X").data, content := ("stale").data }

/-- A store holding the ten old `"X"` chunks plus two chunks of another
document `"Y"`. -/
def wStore12 : List StoreDoc :=
  wOldX ++ [{ id := ("y0").data, doc_id := ("Y").data, content := ("keep").data },
            { id := ("y1").data, doc_id := ("Y").data, content := ("keep").data }]

/-- Seven newly built chunks of document `"X"`. -/
def wNew7 : List StoreDoc :=
  (List.range 7).map fun i =>
    { id := ("new").data ++ natStr i, doc_id := ("X").data, content := ("fresh").data }

/-! ### Helper lemmas -/

theorem rfindNewline_lt {l : List Char} {j : Nat} (h : rfindNewline l = some j) :
    j < l.length := by
  induction l generalizing j with
  | nil => simp [rfindNewline] at h
  | cons c rest ih =>
    rw [rfindNewline] at h
    cases hr : rfindNewline rest with
    | some j' =>
      rw [hr] at h
      simp only [Option.some.injEq] at h
      subst h
      have := ih hr
      simp only [List.length_cons]
      omega
    | none =>
      rw [hr] at h
      by_cases hc : c = '\n'
      · simp [hc] at h
        simp only [List.length_cons]
        omega
      · simp [hc] at h

theorem rfindNewline_newline {l : List Char} {j : Nat} (h : rfindNewline l = some j) :
    l[j]? = some '\n' := by
  induction l generalizing j with
  | nil => simp [rfindNewline] at h
  | cons c rest ih =>
    rw [rfindNewline] at h
    cases hr : rfindNewline rest with
    | some j' =>
      rw [hr] at h
      simp only [Option.some.injEq] at h
      subst h
      simpa using ih hr
    | none =>
      rw [hr] at h
      by_cases hc : c = '\n'
      · simp [hc] at h
        subst h
        simp [hc]
      · simp [hc] at h

theorem splitTextLoop_bound :
    ∀ (fuel : Nat) (text : List Char) (m : Nat) (parts res : List (List Char)),
      splitTextLoop fuel text m parts = some res →
      (∀ p ∈ parts, p.length ≤ m) → ∀ p ∈ res, p.length ≤ m := by
  intro fuel
  induction fuel with
  | zero => intro text m parts res h; simp [splitTextLoop] at h
  | succ n ih =>
    intro text m parts res h hparts
    rw [splitTextLoop] at h
    by_cases hg : text.length > m
    · rw [if_pos hg] at h
      have hstep : ∀ (j : Nat), j ≤ m →
          splitTextLoop n (text.drop j) m (parts ++ [text.take j]) = some res →
          ∀ p ∈ res, p.length ≤ m := by
        intro j hj hcall
        apply ih _ _ _ _ hcall
        intro p hp
        rcases List.mem_append.1 hp with h1 | h2
        · exact hparts p h1
        · simp only [List.mem_singleton] at h2
          subst h2
          calc (text.take j).length ≤ j := List.length_take_le _ _
            _ ≤ m := hj
      cases hr : rfindNewline (text.take m) with
      | some j =>
        rw [hr] at h
        have hjm : j < m := by
          have := rfindNewline_lt hr
          have hle := List.length_take_le m text
          omega
        exact hstep j (le_of_lt hjm) h
      | none =>
        rw [hr] at h
        exact hstep m le_rfl h
    · rw [if_neg hg] at h
      simp only [Option.some.injEq] at h
      subst h
      intro p hp
      rcases List.mem_append.1 hp with h1 | h2
      · exact hparts p h1
      · simp only [List.mem_singleton] at h2
        subst h2
        omega

theorem split_text_bound {t : List Char} {m : Nat} {res : List (List Char)}
    (h : split_text t m = some res) : ∀ p ∈ res, p.length ≤ m :=
  splitTextLoop_bound _ _ _ [] res h (by simp)

/-! ### Claim theorems -/

/-- C6: the claim states that for every input text and every maxChars >= 1
the greedy splitting loop of `split_text` terminates with a finite list of
parts. The code does not: on the text `"a\nbb"` with maxChars 1 the loop
reaches the remainder `"\nbb"`, where the last newline at-or-before the
limit sits at index 0, so `text[:0] = ""` is emitted and `text[0:]` leaves
the text unchanged — the loop runs forever. The second conjunct shows the
loop from that state returns no result under any fuel bound, i.e. the
source `while` loop never exits; the first conjunct records the resulting
divergence of `split_text` on the concrete input. -/
theorem split_text_nontermination :
    split_text (("a\nbb").data) 1 = none ∧
    ∀ (fuel : Nat) (acc : List (List Char)),
      splitTextLoop fuel (("\nbb").data) 1 acc = none := by
  have key : ∀ (fuel : Nat) (acc : List (List Char)),
      splitTextLoop fuel (("\nbb").data) 1 acc = none := by
    intro fuel
    induction fuel with
    | zero => intro acc; rfl
    | succ n ih => intro acc; exact ih (acc ++ [[]])
  exact ⟨by rfl, key⟩

/-- C8: the claim states that `delete_all_documents` repeatedly pages
through the store's capped result set, issuing batch deletes until no
document ids remain. The code issues exactly one `top=1000` search and one
batch delete, with no loop: on a store of 1001 documents (ids 0..1000) the
document with id 1000 survives, so ids do remain. This contradicts the
claim and the function's own docstring ("Deletes all documents in the
Azure Cognitive Search index."). -/
theorem delete_all_documents_leaves_remainder :
    delete_all_documents (List.range 1001) = [1000] ∧
    delete_all_documents (List.range 1001) ≠ [] := by
  have h : delete_all_documents (List.range 1001) = [1000] := by
    have htake : (List.range 1001).take 1000 = List.range 1000 := by
      rw [List.take_range]; norm_num
    rw [delete_all_documents]
    simp only [htake]
    rw [if_neg (by simp [List.isEmpty_iff])]
    have hsplit : List.range 1001 = List.range 1000 ++ [1000] := List.range_succ 1000
    rw [hsplit, List.filter_append]
    have h1 : (List.range 1000).filter (fun d => !((List.range 1000).contains d)) = [] := by
      apply List.filter_eq_nil_iff.mpr
      intro a ha
      simp [List.elem_iff, ha]
    have h2 : [1000].filter (fun d => !((List.range 1000).contains d)) = [1000] := by
      simp [List.elem_iff, List.mem_range]
    rw [h1, h2]
    rfl
  exact ⟨h, by rw [h]; simp⟩

/-- C3 (amended): with zero hits, `answer_with_search` returns the fixed
literal `"No relevant information was found in the indexed documents."`
with an empty results list, for EVERY generation oracle — the result does
not depend on `gen`, i.e. no generation call is made. (The claim's quoted
literal "not found in retrieved contract text" is not the message the code
returns; see the counterexample.) -/
theorem answer_empty_hits_fixed_message (gen : List Char → List Char → List Char)
    (q : List Char) (hist : List ChatMsg) :
    answer_with_search gen q hist [] = { answer := noHitsMsg, results := [] } :=
  rfl

/-- C3 (counterexample): at a concrete empty-hit input the empty-hits
answer is `noHitsMsg`, and that message is not the literal
`"not found in retrieved contract text"` stated by the claim. -/
theorem answer_empty_hits_literal_ne_claim :
    (answer_with_search constGen (("q").data) [] []).answer = noHitsMsg ∧
    noHitsMsg ≠ ("not found in retrieved contract text").data :=
  ⟨rfl, by decide⟩

/-- C7: whenever the hit list is non-empty, the answer returned by
`answer_with_search` is exactly the generated text followed by the
citation block appended verbatim (`"\n\nSOURCES:\n"` plus the joined
citation lines) — for every generation oracle, i.e. regardless of what the
generated text already contains. -/
theorem answer_appends_sources_verbatim (gen : List Char → List Char → List Char)
    (q : List Char) (hist : List ChatMsg) (hits : List SearchHit) (hne : hits ≠ []) :
    (answer_with_search gen q hist hits).answer =
      gen systemPrompt (userPrompt q (format_chat_history hist)
        (List.intercalate (("\n\n").data) (contextBlocks hits))) ++
      ("\n\nSOURCES:\n").data ++ List.intercalate ['\n'] (citationBlocks hits) := by
  rw [answer_with_search]
  rw [if_neg hne]

/-- Witness for C7 at a concrete hit list and generation oracle. -/
theorem answer_appends_sources_verbatim_witness :
    (answer_with_search constGen (("q").data) [] [wHit]).answer =
      constGen systemPrompt (userPrompt (("q").data) (format_chat_history [])
        (List.intercalate (("\n\n").data) (contextBlocks [wHit]))) ++
      ("\n\nSOURCES:\n").data ++ List.intercalate ['\n'] (citationBlocks [wHit]) :=
  answer_appends_sources_verbatim constGen (("q").data) [] [wHit] (by decide)

/-- C2: for a non-empty hit list of length N, `answer_with_search` builds
exactly N citation lines, and for every index the i-th citation line and
the i-th context block are rendered from the same hit `hits[i]` with the
same 1-based ordinal (hence the same id, filename, page number and score,
the fields `citationLine` and `contextBlock` read). -/
theorem citation_context_alignment (hits : List SearchHit) (hne : hits ≠ []) :
    (citationBlocks hits).length = hits.length ∧
    ∀ (i : Nat) (h : i < hits.length),
      (citationBlocks hits)[i]? = some (citationLine (i + 1) hits[i]) ∧
      (contextBlocks hits)[i]? = some (contextBlock (i + 1) hits[i]) := by
  refine ⟨by simp [citationBlocks], ?_⟩
  intro i h
  constructor
  · rw [citationBlocks, List.getElem?_map, List.getElem?_enum,
      List.getElem?_eq_getElem h]
    rfl
  · rw [contextBlocks, List.getElem?_map, List.getElem?_enum,
      List.getElem?_eq_getElem h]
    rfl

/-- Witness for C2 on a concrete one-hit list. -/
theorem citation_context_alignment_witness :
    (citationBlocks [wHit]).length = [wHit].length ∧
    ((citationBlocks [wHit])[0]? = some (citationLine 1 wHit) ∧
     (contextBlocks [wHit])[0]? = some (contextBlock 1 wHit)) :=
  ⟨(citation_context_alignment [wHit] (by decide)).1,
   (citation_context_alignment [wHit] (by decide)).2 0 (by decide)⟩

/-- C5 (counterexample): `embed_text` is called with no try/except inside
the `for ch in chunks` loop of `index_chunks`, so an embedding failure on
the first chunk aborts the whole function: with the failing embedder and
the batch `[wChBad, wChGood]`, the result is the propagated error — no
document list is ever handed to `upload_documents`, so the remaining chunk
`wChGood` is NOT upserted and no failed-identifier report is produced,
contradicting the claim that one chunk's failure never aborts the batch. -/
theorem index_chunks_embed_failure_aborts :
    index_chunks wEmbedBad wUploadOk [wChBad, wChGood] = Except.error () :=
  rfl

/-- C5 (amended): when every chunk embeds successfully, `index_chunks`
uploads all the chunks' documents in one batch and returns the
non-succeeded upload results as the failure report (the printed list of
failed documents): a per-document upsert failure is reported, not dropped,
and does not abort the rest of the uploaded batch. An embedding failure,
by contrast, aborts everything (see the counterexample). -/
theorem index_chunks_ok_batch {V E : Type} (embed : List Char → Except E V)
    (upload : List (UploadDoc V) → List UploadResult) (chunks : List IndexChunk)
    (hne : chunks ≠ [])
    (hok : ∀ ch ∈ chunks, exceptIsOk (embed ch.content) = true) :
    ∃ docs, index_chunks embed upload chunks =
        .ok (docs, (upload docs).filter fun r => !r.succeeded) ∧
      docs.length = chunks.length := by
  have hbuild : ∀ (cs : List IndexChunk), (∀ ch ∈ cs, exceptIsOk (embed ch.content) = true) →
      ∃ ds, buildDocs embed cs = .ok ds ∧ ds.length = cs.length := by
    intro cs
    induction cs with
    | nil => intro _; exact ⟨[], rfl, rfl⟩
    | cons ch rest ih =>
      intro hall
      have hch := hall ch (List.mem_cons_self _ _)
      cases he : embed ch.content with
      | error e => rw [he] at hch; simp [exceptIsOk] at hch
      | ok v =>
        obtain ⟨ds, hds, hlen⟩ := ih fun c hc => hall c (List.mem_cons_of_mem _ hc)
        exact ⟨mkUploadDoc ch v :: ds, by simp [buildDocs, he, hds], by simp [hlen]⟩
  obtain ⟨docs, hdocs, hlen⟩ := hbuild chunks hok
  have hdne : docs ≠ [] := by
    intro hd
    rw [hd] at hlen
    exact hne (List.length_eq_zero.mp hlen.symm)
  refine ⟨docs, ?_, hlen⟩
  have hie : docs.isEmpty = false := by
    cases docs with
    | nil => exact absurd rfl hdne
    | cons x xs => rfl
  simp [index_chunks, hdocs, hie]

/-- Witness for the amended C5: two chunks that embed fine, a store that
rejects the one with id `"f"`; the batch is uploaded whole and the failure
is reported. -/
theorem index_chunks_ok_batch_witness :
    ∃ docs, index_chunks wEmbedOk wUploadOneFail [wChGood, wChF] =
        .ok (docs, (wUploadOneFail docs).filter fun r => !r.succeeded) ∧
      docs.length = [wChGood, wChF].length :=
  index_chunks_ok_batch wEmbedOk wUploadOneFail [wChGood, wChF] (by decide) (by decide)

theorem filter_filter_of_imp {α : Type} (p q : α → Bool) :
    ∀ (l : List α), (∀ e ∈ l, p e = true → q e = true) →
      (l.filter q).filter p = l.filter p := by
  intro l
  induction l with
  | nil => intro _; rfl
  | cons x xs ih =>
    intro h
    have hx := h x (List.mem_cons_self _ _)
    have ihx := ih fun e he hpe => h e (List.mem_cons_of_mem _ he) hpe
    by_cases hq : q x = true
    · by_cases hp : p x = true
      · simp [List.filter_cons, hq, hp, ihx]
      · simp [List.filter_cons, hq, hp, ihx]
    · have hp : p x = false := by
        cases hpc : p x with
        | false => rfl
        | true => exact absurd (hx hpc) hq
      simp [List.filter_cons, hq, hp, ihx]

theorem uploadDocs_filter (docId : List Char) :
    ∀ (docs b : List StoreDoc),
      (∀ d ∈ docs, d.doc_id = docId) →
      docs.Pairwise (fun a c => a.id ≠ c.id) →
      (∀ d ∈ docs, ∀ e ∈ b, e.doc_id = docId → e.id ≠ d.id) →
      (uploadDocsStore b docs).filter (fun d => d.doc_id = docId) =
        b.filter (fun d => d.doc_id = docId) ++ docs := by
  intro docs
  induction docs with
  | nil => intro b _ _ _; simp [uploadDocsStore]
  | cons doc rest ih =>
    intro b hall hpw hdisj
    cases hpw with
    | cons hhead htail =>
      have hstep : uploadDocsStore b (doc :: rest) = uploadDocsStore (upsertOne b doc) rest := by
        simp [uploadDocsStore]
      rw [hstep]
      have hb' : ∀ d ∈ rest, ∀ e ∈ upsertOne b doc, e.doc_id = docId → e.id ≠ d.id := by
        intro d hd e he heq
        rw [upsertOne] at he
        rcases List.mem_append.1 he with h1 | h2
        · exact hdisj d (List.mem_cons_of_mem _ hd) e (List.mem_of_mem_filter h1) heq
        · simp only [List.mem_singleton] at h2
          subst h2
          exact hhead d hd
      rw [ih (upsertOne b doc) (fun d hd => hall d (List.mem_cons_of_mem _ hd)) htail hb']
      have hdoc : doc.doc_id = docId := hall doc (List.mem_cons_self _ _)
      rw [upsertOne, List.filter_append]
      have h1 : (([doc] : List StoreDoc).filter fun d => d.doc_id = docId) = [doc] := by
        simp [List.filter_cons, hdoc]
      have h2 : ((b.filter fun d => !(d.id = doc.id)).filter fun d => d.doc_id = docId) =
          b.filter fun d => d.doc_id = docId := by
        apply filter_filter_of_imp
        intro e he hpe
        have hne : e.id ≠ doc.id :=
          hdisj doc (List.mem_cons_self _ _) e he (by simpa using hpe)
        simpa using hne
      rw [h1, h2]
      simp

/-- C4: the claim states that re-indexing a document id first deletes every
previously indexed chunk with that `doc_id` and then writes the newly
built chunks, leaving exactly the new chunks retrievable for that
`doc_id`. `reindex_document` does `delete_documents_by_doc_id(doc_id)`
followed by `index_chunks(chunks)` (document_manager.py lines 77-78);
at the store level that is `reindex_document_store`. For any prior store
state and any batch of new chunk documents all carrying the given
`doc_id`, with pairwise distinct chunk ids, the documents filtered by that
`doc_id` afterwards are exactly the new ones, in order. (The delete
operation itself is not under src/ and is modelled from spec section 4.2.) -/
theorem reindex_replaces_doc_chunks (docId : List Char) (newDocs store : List StoreDoc)
    (hall : ∀ d ∈ newDocs, d.doc_id = docId)
    (hids : newDocs.Pairwise fun a c => a.id ≠ c.id) :
    (reindex_document_store docId newDocs store).filter (fun d => d.doc_id = docId) =
      newDocs := by
  rw [reindex_document_store]
  have hbase : ∀ d ∈ newDocs, ∀ e ∈ delete_documents_by_doc_id docId store,
      e.doc_id = docId → e.id ≠ d.id := by
    intro d _ e he heq
    rw [delete_documents_by_doc_id] at he
    have hf := List.of_mem_filter he
    simp only [Bool.not_eq_true'] at hf
    simp only [decide_eq_false_iff_not] at hf
    exact absurd heq hf
  rw [uploadDocs_filter docId newDocs _ hall hids hbase]
  have hnilX : (delete_documents_by_doc_id docId store).filter
      (fun d => d.doc_id = docId) = [] := by
    rw [delete_documents_by_doc_id]
    apply List.filter_eq_nil_iff.mpr
    intro a ha
    have hf := List.of_mem_filter ha
    simp only [Bool.not_eq_true'] at hf
    simp only [decide_eq_false_iff_not] at hf
    simpa using hf
  rw [hnilX]
  rfl

/-- Witness for C4: a store holding ten stale chunks of document `"X"` and
two chunks of `"Y"`; re-indexing `"X"` with seven new chunks leaves
exactly those seven retrievable for `doc_id == "X"`. -/
theorem reindex_replaces_doc_chunks_witness :
    (reindex_document_store (("X").data) wNew7 wStore12).filter
      (fun d => d.doc_id = ("X").data) = wNew7 :=
  reindex_replaces_doc_chunks (("X").data) wNew7 wStore12 (by decide) (by decide)

theorem chunksOfBlock_bound {d s : List Char} {m : Nat} {b : Nat × List Char}
    {cs : List Chunk} (h : chunksOfBlock d s m b = some cs) :
    ∀ c ∈ cs, c.content.length ≤ m := by
  rw [chunksOfBlock] at h
  cases hs : split_text b.2 m with
  | none => rw [hs] at h; simp at h
  | some parts =>
    rw [hs] at h
    simp only [Option.map_some', Option.some.injEq] at h
    subst h
    intro c hc
    obtain ⟨e, he, hce⟩ := List.mem_map.1 hc
    have hsnd : e.2 ∈ parts := by
      have h2 := List.mem_map_of_mem Prod.snd he
      rwa [List.enum_map_snd] at h2
    have hb := split_text_bound hs e.2 hsnd
    rw [← hce]
    simpa using hb

theorem chunksOfBlocks_bound {d s : List Char} {m : Nat} :
    ∀ (bs : List (Nat × List Char)) (cs : List Chunk),
      chunksOfBlocks d s m bs = some cs → ∀ c ∈ cs, c.content.length ≤ m := by
  intro bs
  induction bs with
  | nil =>
    intro cs h
    rw [chunksOfBlocks] at h
    simp only [Option.some.injEq] at h
    subst h
    intro c hc
    cases hc
  | cons b rest ih =>
    intro cs h
    rw [chunksOfBlocks] at h
    cases h1 : chunksOfBlock d s m b with
    | none =>
      rw [h1] at h
      cases h2 : chunksOfBlocks d s m rest with
      | none => rw [h2] at h; simp at h
      | some r2 => rw [h2] at h; simp at h
    | some cs1 =>
      rw [h1] at h
      cases h2 : chunksOfBlocks d s m rest with
      | none => rw [h2] at h; simp at h
      | some r2 =>
        rw [h2] at h
        simp only [Option.some.injEq] at h
        subst h
        intro c hc
        rcases List.mem_append.1 hc with hc1 | hc2
        · exact chunksOfBlock_bound h1 c hc1
        · exact ih r2 h2 c hc2

/-- C1: for every structural result, document id, source filename and
configured maximum `maxChars ≥ 1`, every chunk emitted by `doc_to_chunks`
has content of character length at most `maxChars`: each emitted part is
either a prefix cut at a newline index strictly below the limit, a hard
cut of exactly `maxChars` characters, or a final remainder of length at
most `maxChars` (the `some chunks` hypothesis records that the splitting
loop terminated, which the source implicitly assumes). -/
theorem doc_to_chunks_content_le_max (r : DIResult) (d s : List Char) (m : Nat)
    (hm : 1 ≤ m) (chunks : List Chunk) (h : doc_to_chunks r d s m = some chunks) :
    ∀ c ∈ chunks, c.content.length ≤ m :=
  chunksOfBlocks_bound (page_blocks r) chunks h

/-- Witness for C1 on the concrete one-page result and `maxChars = 9`:
the emitted chunk `wChunk0` respects the bound. -/
theorem doc_to_chunks_content_le_max_witness :
    wChunk0.content.length ≤ 9 :=
  doc_to_chunks_content_le_max wResult (("d").data) (("s").data) 9 (by decide)
    [wChunk0] (by decide) wChunk0 (List.mem_singleton.mpr rfl)

theorem dropTrailing_head {p : Char → Bool} {l : List Char} {c : Char}
    (h : (dropTrailing p l).head? = some c) : l.head? = some c := by
  cases l with
  | nil => simp [dropTrailing] at h
  | cons x rest =>
    rw [dropTrailing] at h
    cases hr : dropTrailing p rest with
    | nil =>
      rw [hr] at h
      by_cases hp : p x = true
      · simp [hp] at h
      · simp [hp] at h
        simp [h]
    | cons y ys =>
      rw [hr] at h
      simp at h ⊢
      exact h

theorem dropWhile_head_not {p : Char → Bool} {l : List Char} {c : Char}
    (h : (l.dropWhile p).head? = some c) : p c = false := by
  induction l with
  | nil => simp [List.dropWhile] at h
  | cons x rest ih =>
    by_cases hp : p x = true
    · rw [List.dropWhile_cons, if_pos hp] at h
      exact ih h
    · rw [List.dropWhile_cons, if_neg hp] at h
      simp at h
      subst h
      simpa using hp

theorem pyStrip_head_not_space {l : List Char} {c : Char}
    (h : (pyStrip l).head? = some c) : isPySpace c = false := by
  rw [pyStrip] at h
  exact dropWhile_head_not (dropTrailing_head h)

theorem normalizeNewlines_head {l : List Char} {c : Char} (hc : c ≠ '\n')
    (h : l.head? = some c) : (normalizeNewlines l).head? = some c := by
  cases l with
  | nil => simp at h
  | cons x rest =>
    simp at h
    subst h
    rw [normalizeNewlines, normNLAux]
    rw [if_neg hc]
    simp

theorem splitLoop_one_part {u : List Char} {m : Nat} (h : u.length = m) :
    splitTextLoop (u.length + 1) u m [] = some [u] := by
  rw [splitTextLoop]
  rw [if_neg (by omega)]
  rfl

theorem splitLoop_two_parts {u : List Char} {m : Nat} (hm : 1 ≤ m) (h : u.length = m + 1)
    (hhead : u.head? ≠ some '\n') :
    ∃ a b, splitTextLoop (u.length + 1) u m [] = some [a, b] := by
  rw [splitTextLoop]
  rw [if_pos (by omega)]
  cases hr : rfindNewline (u.take m) with
  | none =>
    refine ⟨u.take m, u.drop m, ?_⟩
    show splitTextLoop u.length (u.drop m) m ([] ++ [u.take m]) = some [u.take m, u.drop m]
    rw [h]
    rw [splitTextLoop]
    rw [if_neg (by rw [List.length_drop, h]; omega)]
    rfl
  | some j =>
    have hjlt : j < (u.take m).length := rfindNewline_lt hr
    have hjm : j < m := by
      have := List.length_take_le m u
      omega
    have hj1 : 1 ≤ j := by
      by_contra hj0
      have hj : j = 0 := by omega
      subst hj
      have hnl := rfindNewline_newline hr
      rw [List.getElem?_take] at hnl
      rw [if_pos (by omega)] at hnl
      rw [← List.head?_eq_getElem?] at hnl
      exact hhead hnl
    refine ⟨u.take j, u.drop j, ?_⟩
    show splitTextLoop u.length (u.drop j) m ([] ++ [u.take j]) = some [u.take j, u.drop j]
    rw [h]
    rw [splitTextLoop]
    rw [if_neg (by rw [List.length_drop, h]; omega)]
    rfl

/-- C9: for every page block of a structural result whose text, after the
blank-line normalization `split_text` applies first, is exactly `maxChars`
characters long, the chunk builder emits exactly one chunk for that page;
at exactly `maxChars + 1` characters it emits exactly two. The page block
text is stripped, so it cannot start with a newline, which rules out the
degenerate cut at index 0. -/
theorem block_boundary_chunk_counts (r : DIResult) (d s : List Char) (m p : Nat)
    (t : List Char) (hmem : (p, t) ∈ page_blocks r) (hm : 1 ≤ m) :
    ((normalizeNewlines t).length = m →
      ∃ cs, chunksOfBlock d s m (p, t) = some cs ∧ cs.length = 1) ∧
    ((normalizeNewlines t).length = m + 1 →
      ∃ cs, chunksOfBlock d s m (p, t) = some cs ∧ cs.length = 2) := by
  obtain ⟨e, he, heq⟩ := List.mem_map.1 hmem
  have ht : t = pyStrip (blockFor r e.1 e.2) := by
    have := congrArg Prod.snd heq
    simpa using this.symm
  have hhead : (normalizeNewlines t).head? ≠ some '\n' := by
    intro hcon
    cases hT : t with
    | nil =>
      rw [hT] at hcon
      simp [normalizeNewlines, normNLAux] at hcon
    | cons c rest =>
      have hc0 : t.head? = some c := by rw [hT]; rfl
      have hcn : c ≠ '\n' := by
        intro hc
        subst hc
        have hsp := pyStrip_head_not_space (l := blockFor r e.1 e.2) (by rw [← ht]; exact hc0)
        simp [isPySpace] at hsp
      have hnh := normalizeNewlines_head hcn hc0
      rw [hnh] at hcon
      simp at hcon
      exact hcn hcon
  constructor
  · intro hlen
    have hsp : split_text t m = some [normalizeNewlines t] := by
      rw [split_text]
      exact splitLoop_one_part hlen
    simp only [chunksOfBlock]
    rw [hsp]
    exact ⟨_, rfl, by simp⟩
  · intro hlen
    obtain ⟨a, b, hab⟩ := splitLoop_two_parts hm hlen hhead
    have hsp : split_text t m = some [a, b] := by
      rw [split_text]
      exact hab
    simp only [chunksOfBlock]
    rw [hsp]
    exact ⟨_, rfl, by simp⟩

/-- Witness for C9: the page block `"PAGE 1\nab"` (9 characters, already
newline-normalized) of the concrete one-page result gives exactly one
chunk at `maxChars = 9` and exactly two at `maxChars = 8`. -/
theorem block_boundary_chunk_counts_witness :
    (∃ cs, chunksOfBlock (("d").data) (("s").data) 9 (1, ("PAGE 1\nab").data) = some cs ∧
      cs.length = 1) ∧
    (∃ cs, chunksOfBlock (("d").data) (("s").data) 8 (1, ("PAGE 1\nab").data) = some cs ∧
      cs.length = 2) :=
  ⟨(block_boundary_chunk_counts wResult (("d").data) (("s").data) 9 1
      (("PAGE 1\nab").data) (by decide) (by decide)).1 (by decide),
   (block_boundary_chunk_counts wResult (("d").data) (("s").data) 8 1
      (("PAGE 1\nab").data) (by decide) (by decide)).2 (by decide)⟩

theorem filter_map_filter {α β : Type} (f : α → β) (q : β → Bool) (keep : α → Bool)
    (h : ∀ x, q (f x) = true → keep x = true) :
    ∀ (l : List α), ((l.filter keep).map f).filter q = (l.map f).filter q := by
  intro l
  induction l with
  | nil => rfl
  | cons x xs ih =>
    by_cases hk : keep x = true
    · simp only [List.filter_cons, hk, if_true, List.map_cons]
      by_cases hq : q (f x) = true
      · simp [hq, ih]
      · simp [hq, ih]
    · have hq : q (f x) = false := by
        cases hqc : q (f x) with
        | false => rfl
        | true => exact absurd (h x hqc) hk
      simp [List.filter_cons, hk, List.map_cons, hq, ih]

theorem extract_paragraphs_dropPageless (r : DIResult) (n : Nat) :
    ((extract_paragraphs (dropPageless r)).filter fun p => p.page = some n) =
      (extract_paragraphs r).filter fun p => p.page = some n := by
  rw [extract_paragraphs, extract_paragraphs]
  simp only [dropPageless]
  apply filter_map_filter
  intro x hx
  simp only [decide_eq_true_eq] at hx
  simp only [Option.isSome_iff_exists]
  exact ⟨n, hx⟩

theorem extract_tables_dropPageless (r : DIResult) (n : Nat) :
    ((extract_tables (dropPageless r)).filter fun t => t.page = some n) =
      (extract_tables r).filter fun t => t.page = some n := by
  rw [extract_tables, extract_tables]
  simp only [dropPageless]
  apply filter_map_filter
  intro x hx
  simp only [decide_eq_true_eq] at hx
  simp only [Option.isSome_iff_exists]
  exact ⟨n, hx⟩

theorem extract_kvs_dropPageless (r : DIResult) (n : Nat) :
    ((extract_kvs (dropPageless r)).filter fun k => k.page = some n) =
      (extract_kvs r).filter fun k => k.page = some n := by
  rw [extract_kvs, extract_kvs]
  simp only [dropPageless]
  apply filter_map_filter
  intro x hx
  simp only [decide_eq_true_eq] at hx
  simp only [Option.isSome_iff_exists]
  exact ⟨n, hx⟩

theorem blockFor_dropPageless (r : DIResult) (n : Nat) (txt : List Char) :
    blockFor (dropPageless r) n txt = blockFor r n txt := by
  simp only [blockFor]
  rw [extract_paragraphs_dropPageless, extract_tables_dropPageless, extract_kvs_dropPageless]

theorem page_text_map_dropPageless (r : DIResult) :
    page_text_map (dropPageless r) = page_text_map r := by
  rw [page_text_map, page_text_map]
  simp [dropPageless]

theorem page_blocks_dropPageless (r : DIResult) :
    page_blocks (dropPageless r) = page_blocks r := by
  rw [page_blocks, page_blocks, page_text_map_dropPageless]
  simp only [blockFor_dropPageless]

/-- C10: a paragraph, table or key-value field whose page reference is
unresolved (no bounding-region page number, `pg = None`) is excluded from
every page block: removing all such items from the structural result
leaves the entire chunk output of `doc_to_chunks` unchanged, for every
document id, source filename and maximum — so their text reaches no
emitted chunk, and no document-level tail block is produced for them. -/
theorem pageless_items_dropped (r : DIResult) (d s : List Char) (m : Nat) :
    doc_to_chunks (dropPageless r) d s m = doc_to_chunks r d s m := by
  rw [doc_to_chunks, doc_to_chunks, page_blocks_dropPageless]
